import Mathlib

/-!
Shallow embedding of the Wallet store module (src/store/Wallet.ts) of the
symbol-desktop-wallet repository: the state shape, the mutations, the getters
and the actions the specification talks about.  JavaScript arrays are lists,
the Vuex state is an explicit record, a thrown exception is an Except.error,
and the asynchronous REST service is a parameter giving the outcome of the
external call.
-/

deriving instance DecidableEq for Except

/-- A transaction as the store sees it.  The code reads two different hash
fields: ADD_TRANSACTION reads transaction.transactionInfo.hash while
REMOVE_TRANSACTION reads transaction.meta.hash; both fields are carried
here. -/
structure Tx where
  txInfoHash : String
  metaHash : String
deriving DecidableEq, Repr

/-- The transaction group, the value computed by transactionGroupToStateVariable
and used to select one of the three state sequences (gPart stands for the
partial group; the word itself is shortened). -/
inductive TGroup
  | gPart
  | gUnconf
  | gConf
deriving DecidableEq, Repr

/-- The query tuple (group, address, pageSize, id) that CacheKey.create is
applied to in REST_FETCH_TRANSACTIONS. -/
structure QueryTuple where
  group : String
  address : String
  pageSize : Nat
  id : Option String
deriving DecidableEq, Repr

/-- A JavaScript property key of the transactionCache object.
Modelled from the spec: the CacheKey utility is not part of the sources given
here; the spec describes fingerprint(group, address, pageSize, continuationId)
as deterministic and collision-free for distinct tuples, so the key is
modelled as the tuple itself.  The extra constructor undef models the property
key that arises when the cacheKey field of the payload is absent (JavaScript
indexes the object with undefined), which is distinct from every
fingerprint. -/
inductive JsKey
  | undef
  | ckey (q : QueryTuple)
deriving DecidableEq, Repr

/-- An entry pushed by the addTransactionToCache mutation: the object
(hash, transaction). -/
structure CacheEntry where
  hash : String
  transaction : Tx
deriving DecidableEq, Repr

/-- A websocket subscription handle (SubscriptionType: a listener plus its
sub-subscriptions).  The two Boolean fields say whether, at teardown time,
one of sub.unsubscribe() respectively listener.close() throws. -/
structure SubHandle where
  hid : Nat
  unsubFails : Bool
  closeFails : Bool
deriving DecidableEq, Repr

/-- The fields of the Wallet store state that the specified operations read or
write (wallet-info fields, staged and signed transactions are outside the
claims and omitted). -/
structure WalletState where
  initialized : Bool
  transactionHashes : List String
  confirmedTransactions : List Tx
  unconfirmedTransactions : List Tx
  partTransactions : List Tx
  transactionCache : List (JsKey × List CacheEntry)
  subscriptions : List SubHandle
deriving DecidableEq, Repr

/-- The initial Wallet store state (module state literal, lines 90-109). -/
def initialState : WalletState :=
  { initialized := false
    transactionHashes := []
    confirmedTransactions := []
    unconfirmedTransactions := []
    partTransactions := []
    transactionCache := []
    subscriptions := [] }

/-- Getter selecting the sequence named by a group, as getters[transactionGroup]
does after transactionGroupToStateVariable appended the Transactions suffix. -/
def groupTxs (s : WalletState) : TGroup → List Tx
  | .gConf => s.confirmedTransactions
  | .gUnconf => s.unconfirmedTransactions
  | .gPart => s.partTransactions

/-- The commit that stores a sequence under the state variable named by a
group (mutations confirmedTransactions, unconfirmedTransactions,
partialTransactions). -/
def setGroupTxs (s : WalletState) : TGroup → List Tx → WalletState
  | .gConf, l => { s with confirmedTransactions := l }
  | .gUnconf, l => { s with unconfirmedTransactions := l }
  | .gPart, l => { s with partTransactions := l }

/-- group.toLowerCase(): character-wise lower-casing of the tag string. -/
def jsToLower (s : String) : String := ⟨s.data.map Char.toLower⟩

/-- transactionGroupToStateVariable (Wallet.ts lines 46-60): lower-cases the
group tag, accepts exactly unconfirmed, confirmed and partial, and throws an
Error on any other input. -/
def transactionGroupToStateVariable (group : String) : Except String TGroup :=
  let transactionGroup := jsToLower group
  if transactionGroup = "unconfirmed" then .ok .gUnconf
  else if transactionGroup = "confirmed" then .ok .gConf
  else if transactionGroup = "partial" then .ok .gPart
  else .error ("Unknown transaction group " ++ group)

/-- Association-list read of the transactionCache object. -/
def cacheGet : List (JsKey × List CacheEntry) → JsKey → Option (List CacheEntry)
  | [], _ => none
  | (k, v) :: rest, key => if k = key then some v else cacheGet rest key

/-- Association-list write of the transactionCache object. -/
def cacheSet : List (JsKey × List CacheEntry) → JsKey → List CacheEntry →
    List (JsKey × List CacheEntry)
  | [], key, v => [(key, v)]
  | (k, w) :: rest, key, v =>
    if k = key then (key, v) :: rest else (k, w) :: cacheSet rest key v

/-- The payload of the addTransactionToCache mutation.  cacheKey is Option
because the call site inside ADD_TRANSACTION builds the payload without a
cacheKey field. -/
structure CachePayload where
  cacheKey : Option QueryTuple
  hash : String
  transaction : Tx
deriving DecidableEq, Repr

/-- The JavaScript property key obtained from the payload field: an absent
cacheKey indexes the cache with undefined. -/
def jsKeyOf : Option QueryTuple → JsKey
  | none => .undef
  | some q => .ckey q

/-- Mutation addTransactionToCache (lines 164-183): just-in-time creation of
the collection for an unknown key, then push of the (hash, transaction)
entry. -/
def addTransactionToCache (s : WalletState) (payload : CachePayload) : WalletState :=
  let key := jsKeyOf payload.cacheKey
  let cur := (cacheGet s.transactionCache key).getD []
  { s with transactionCache :=
      cacheSet s.transactionCache key (cur ++ [⟨payload.hash, payload.transaction⟩]) }

/-- Action RESET_TRANSACTIONS (lines 282-286): commits the empty array to the
three group sequences and touches nothing else. -/
def RESET_TRANSACTIONS (s : WalletState) : WalletState :=
  { s with confirmedTransactions := []
           unconfirmedTransactions := []
           partTransactions := [] }

/-- Getter allTransactions (lines 127-133): [].concat(partial, unconfirmed,
confirmed). -/
def allTransactions (s : WalletState) : List Tx :=
  s.partTransactions ++ s.unconfirmedTransactions ++ s.confirmedTransactions

/-- The state produced by the registration half of ADD_TRANSACTION (lines
303-311): push the transaction on the group sequence, push its hash, commit
addTransactionToCache with a payload that carries no cacheKey field, and
commit the two sequences back. -/
def addResultState (s : WalletState) (transactionGroup : TGroup) (transaction : Tx) :
    WalletState :=
  let transactions := groupTxs s transactionGroup ++ [transaction]
  let hashes := s.transactionHashes ++ [transaction.txInfoHash]
  let s1 := addTransactionToCache s ⟨none, transaction.txInfoHash, transaction⟩
  { setGroupTxs s1 transactionGroup transactions with transactionHashes := hashes }

/-- Action ADD_TRANSACTION (lines 287-312).  Throws when the group field is
falsy (absent or empty) or unknown; returns unchanged when the hash is already
known; otherwise registers the transaction (addResultState). -/
def ADD_TRANSACTION (s : WalletState) (group : Option String) (transaction : Tx) :
    Except String WalletState :=
  match group with
  | none => .error "Missing mandatory field group for action wallet/addTransaction."
  | some g =>
    if g = "" then
      .error "Missing mandatory field group for action wallet/addTransaction."
    else
      match transactionGroupToStateVariable g with
      | .error e => .error e
      | .ok transactionGroup =>
        if transaction.txInfoHash ∈ s.transactionHashes then
          .ok s
        else
          .ok (addResultState s transactionGroup transaction)

/-- Action REMOVE_TRANSACTION (lines 313-341).  Throws when the group field is
falsy or unknown; returns unchanged when no transaction of the group matches
transaction.meta.hash; otherwise executes delete transactions[findIterator] and
delete hashes[findHashIt].  The first delete indexes the array with the found
transaction object (property key "[object Object]") and the second with the
hash string (a transaction hash, a 64-character hexadecimal identifier, is
never a canonical array index), so both arrays keep all their elements, and the
commits store them back unchanged. -/
def REMOVE_TRANSACTION (s : WalletState) (group : Option String) (transaction : Tx) :
    Except String WalletState :=
  match group with
  | none => .error "Missing mandatory field group for action wallet/removeTransaction."
  | some g =>
    if g = "" then
      .error "Missing mandatory field group for action wallet/removeTransaction."
    else
      match transactionGroupToStateVariable g with
      | .error e => .error e
      | .ok transactionGroup =>
        let hashes := s.transactionHashes
        let transactions := groupTxs s transactionGroup
        let transactionHash := transaction.metaHash
        match transactions.find? (fun tx => tx.metaHash == transactionHash) with
        | none => .ok s
        | some _ =>
          .ok { setGroupTxs s transactionGroup transactions with transactionHashes := hashes }

/-- The three valid group tags tested (without lower-casing) at the top of
REST_FETCH_TRANSACTIONS. -/
def validGroups : List String := ["partial", "unconfirmed", "confirmed"]

/-- Lines 387-389 of REST_FETCH_TRANSACTIONS: a falsy or unrecognized group
tag is replaced by confirmed. -/
def normalizeGroup : Option String → String
  | none => "confirmed"
  | some g0 => if g0 ∈ validGroups then g0 else "confirmed"

/-- The return value of REST_FETCH_TRANSACTIONS: undefined (early return), the
raw cached collection, the fetched transaction list, or the value false
returned from the catch block. -/
inductive FetchResult
  | undef
  | cachedPage (entries : List CacheEntry)
  | fetched (transactions : List Tx)
  | failedFalse
deriving DecidableEq, Repr

/-- Observable outcome of a REST_FETCH_TRANSACTIONS call: returned value,
resulting store state, and whether the external service was contacted. -/
structure FetchOutcome where
  result : FetchResult
  state : WalletState
  serviceCalled : Bool
deriving DecidableEq, Repr

/-- The dispatch loop of REST_FETCH_TRANSACTIONS over the fetched transactions:
each is fed to ADD_TRANSACTION; a thrown exception would propagate and skip the
remaining dispatches (the Boolean records completion). -/
def dispatchAdds (g : String) : WalletState → List Tx → WalletState × Bool
  | s, [] => (s, true)
  | s, tx :: rest =>
    match ADD_TRANSACTION s (some g) tx with
    | .ok s2 => dispatchAdds g s2 rest
    | .error _ => (s, false)

/-- Action REST_FETCH_TRANSACTIONS (lines 386-442).  Normalizes the group tag
(default confirmed), returns undefined unless the address has exactly 40
characters, returns the cached collection on a cache hit, and otherwise runs
the try block with the external service outcome given as a parameter.  Inside
the try block the local variable blockHeights is declared but never assigned:
for a non-empty confirmed page, blockHeights.push throws a TypeError before any
dispatch; on every other path the final test blockHeights.length throws a
TypeError after the dispatch loop.  Each TypeError (like a service error) is
caught by the catch block, which logs and returns false. -/
def REST_FETCH_TRANSACTIONS (s : WalletState) (group : Option String)
    (address : Option String) (pageSize : Nat) (id : Option String)
    (service : Except String (List Tx)) : FetchOutcome :=
  let g := normalizeGroup group
  match address with
  | none => ⟨.undef, s, false⟩
  | some addr =>
    if addr.length ≠ 40 then ⟨.undef, s, false⟩
    else
      let cacheKey := JsKey.ckey ⟨g, addr, pageSize, id⟩
      match cacheGet s.transactionCache cacheKey with
      | some page => ⟨.cachedPage page, s, false⟩
      | none =>
        match service with
        | .error _ => ⟨.failedFalse, s, true⟩
        | .ok transactions =>
          if g = "confirmed" ∧ transactions ≠ [] then
            ⟨.failedFalse, s, true⟩
          else
            ⟨.failedFalse, (dispatchAdds g s transactions).1, true⟩

/-- The initialize action (lines 223-238).  Under the AwaitLock the callback
returns at once when the address is falsy (absent or empty); otherwise it
dispatches REST_FETCH_INFO and SUBSCRIBE (whose effects touch only fields
outside this model: wallet-info records; and the addSubscriptions mutation
drops the SubscriptionType payload because payload.length is undefined),
dispatches RESET_TRANSACTIONS and commits setInitialized true. -/
def initializeAction (s : WalletState) (address : Option String) : WalletState :=
  match address with
  | none => s
  | some a =>
    if a.length = 0 then s
    else { RESET_TRANSACTIONS s with initialized := true }

/-- Whether tearing down this handle throws: either one of its
sub.unsubscribe() calls or the listener.close() call fails. -/
def failsH (h : SubHandle) : Bool := h.unsubFails || h.closeFails

/-- The map loop of UNSUBSCRIBE over the registered handles, in order: each
handle has its sub-subscriptions unsubscribed and then its listener closed; a
thrown exception propagates out of the loop, leaving the remaining handles
untouched.  Returns the ids of the handles torn down completely and either ok
or the propagated error. -/
def closeAllFrom : List SubHandle → List Nat × Except Unit Unit
  | [] => ([], .ok ())
  | h :: rest =>
    if failsH h then ([], .error ())
    else
      let r := closeAllFrom rest
      (h.hid :: r.1, r.2)

/-- Action UNSUBSCRIBE (lines 370-382): maps the teardown over the registered
handles and then dispatches RESET_SUBSCRIPTIONS (which commits the empty
subscription list).  If the map throws, the reset is never reached and the
exception propagates. -/
def UNSUBSCRIBE (s : WalletState) : List Nat × Except Unit WalletState :=
  let r := closeAllFrom s.subscriptions
  match r.2 with
  | .error e => (r.1, .error e)
  | .ok _ => (r.1, .ok { s with subscriptions := [] })

/-- State observed by the caller after an action call that may throw: a throw
leaves the state as it was, because both throwing actions throw before their
first commit. -/
def okState (s : WalletState) : Except String WalletState → WalletState
  | .ok s2 => s2
  | .error _ => s

/-- Whether an action call threw. -/
def isErrorE (x : Except String WalletState) : Bool :=
  match x with
  | .error _ => true
  | .ok _ => false

/-- Whether UNSUBSCRIBE reached its final RESET_SUBSCRIPTIONS dispatch. -/
def didReset (r : List Nat × Except Unit WalletState) : Bool :=
  match r.2 with
  | .ok _ => true
  | .error _ => false

/-- The hashes of the transactions held in the three group sequences. -/
def ledgerHashes (s : WalletState) : List String :=
  (allTransactions s).map Tx.txInfoHash

/-- The hash-index invariant: the hashes of the three sequences form a subset
of transactionHashes and contain no duplicate (across or within sequences). -/
def HashInvariant (s : WalletState) : Prop :=
  ledgerHashes s ⊆ s.transactionHashes ∧ (ledgerHashes s).Nodup

/-- A state-mutating store operation, with the payload the caller supplies and,
for the fetch action, the outcome of the external service call. -/
inductive WOp
  | add (group : Option String) (tx : Tx)
  | rem (group : Option String) (tx : Tx)
  | reset
  | fetch (group : Option String) (address : Option String) (pageSize : Nat)
      (id : Option String) (service : Except String (List Tx))

/-- Effect of one operation on the store state. -/
def applyOp (s : WalletState) : WOp → WalletState
  | .add g tx => okState s (ADD_TRANSACTION s g tx)
  | .rem g tx => okState s (REMOVE_TRANSACTION s g tx)
  | .reset => RESET_TRANSACTIONS s
  | .fetch g a ps id svc => (REST_FETCH_TRANSACTIONS s g a ps id svc).state

/-- A state reachable from the initial store state by the mutating
operations. -/
def Reachable (s : WalletState) : Prop :=
  ∃ ops : List WOp, s = ops.foldl applyOp initialState

/-- A concrete transaction used in the concrete evaluations. -/
def txA : Tx := ⟨"HASH-A", "HASH-A"⟩

/-- A concrete 40-character address. -/
def addr40 : String := "SAAAAAAAAAAAAAAAAAAAAAAAAAAAAAAAAAAAAAAA"

/-- The state reached from the initial state by adding txA to the confirmed
group. -/
def stateA : WalletState := applyOp initialState (WOp.add (some "confirmed") txA)

/-- stateA after RESET_TRANSACTIONS: the three sequences are empty but the
hash of txA is still in the index. -/
def stateReset : WalletState := RESET_TRANSACTIONS stateA

/-- First call of the cache scenario: unconfirmed group, valid address, empty
cache, service returning one transaction. -/
def fetchOnce : FetchOutcome :=
  REST_FETCH_TRANSACTIONS initialState (some "unconfirmed") (some addr40) 10 none
    (Except.ok [txA])

/-- Second call of the cache scenario, identical arguments, on the state left
by the first call. -/
def fetchTwice : FetchOutcome :=
  REST_FETCH_TRANSACTIONS fetchOnce.state (some "unconfirmed") (some addr40) 10 none
    (Except.ok [txA])

/-- A handle whose teardown succeeds. -/
def subOk1 : SubHandle := ⟨1, false, false⟩

/-- A handle whose listener.close() throws. -/
def subBad : SubHandle := ⟨2, false, true⟩

/-- Another handle whose teardown succeeds. -/
def subOk3 : SubHandle := ⟨3, false, false⟩

/-- A store state with two registered handles, the first of which fails to
close. -/
def stateSubs : WalletState := { initialState with subscriptions := [subBad, subOk3] }

/-- A store state with three registered handles, the middle of which fails to
close. -/
def stateSubs3 : WalletState :=
  { initialState with subscriptions := [subOk1, subBad, subOk3] }

lemma hashes_addResult (s : WalletState) (tg : TGroup) (tx : Tx) :
    (addResultState s tg tx).transactionHashes
      = s.transactionHashes ++ [tx.txInfoHash] := by
  cases tg <;> rfl

lemma allTransactions_addResult (s : WalletState) (tg : TGroup) (tx : Tx) :
    List.Perm (allTransactions (addResultState s tg tx)) (tx :: allTransactions s) := by
  cases tg with
  | gPart =>
    simp only [allTransactions, addResultState, setGroupTxs, groupTxs,
      addTransactionToCache, List.append_assoc]
    exact List.perm_middle
  | gUnconf =>
    simpa [allTransactions, addResultState, setGroupTxs, groupTxs,
      addTransactionToCache, List.append_assoc] using
        (@List.perm_middle Tx tx (s.partTransactions ++ s.unconfirmedTransactions)
          s.confirmedTransactions)
  | gConf =>
    simpa [allTransactions, addResultState, setGroupTxs, groupTxs,
      addTransactionToCache, List.append_assoc] using
        (@List.perm_middle Tx tx
          (s.partTransactions ++ s.unconfirmedTransactions ++ s.confirmedTransactions) [])

lemma ledgerHashes_addResult (s : WalletState) (tg : TGroup) (tx : Tx) :
    List.Perm (ledgerHashes (addResultState s tg tx))
      (tx.txInfoHash :: ledgerHashes s) := by
  simpa [ledgerHashes] using (allTransactions_addResult s tg tx).map Tx.txInfoHash

lemma ADD_ok_cases (s : WalletState) (g : Option String) (tx : Tx) (s2 : WalletState)
    (h : ADD_TRANSACTION s g tx = .ok s2) :
    (tx.txInfoHash ∈ s.transactionHashes ∧ s2 = s) ∨
    (tx.txInfoHash ∉ s.transactionHashes ∧ ∃ tg, s2 = addResultState s tg tx) := by
  cases g with
  | none => simp [ADD_TRANSACTION] at h
  | some g0 =>
    by_cases hg : g0 = ""
    · simp [ADD_TRANSACTION, hg] at h
    · rw [ADD_TRANSACTION] at h
      simp only [if_neg hg] at h
      cases htg : transactionGroupToStateVariable g0 with
      | error e => rw [htg] at h; cases h
      | ok tg =>
        rw [htg] at h
        dsimp only at h
        by_cases hm : tx.txInfoHash ∈ s.transactionHashes
        · rw [if_pos hm] at h
          exact Or.inl ⟨hm, (Except.ok.injEq _ _).mp h.symm⟩
        · rw [if_neg hm] at h
          exact Or.inr ⟨hm, tg, ((Except.ok.injEq _ _).mp h).symm⟩

lemma hashInvariant_addResult (s : WalletState) (tg : TGroup) (tx : Tx)
    (hinv : HashInvariant s) (hnew : tx.txInfoHash ∉ s.transactionHashes) :
    HashInvariant (addResultState s tg tx) := by
  obtain ⟨hsub, hnd⟩ := hinv
  have hperm := ledgerHashes_addResult s tg tx
  constructor
  · intro x hx
    rw [hashes_addResult]
    rcases List.mem_cons.mp (hperm.mem_iff.mp hx) with hx1 | hx2
    · exact List.mem_append_right _ (by simp [hx1])
    · exact List.mem_append_left _ (hsub hx2)
  · refine hperm.nodup_iff.mpr (List.nodup_cons.mpr ⟨?_, hnd⟩)
    intro hmem
    exact hnew (hsub hmem)

lemma hashInvariant_add (s : WalletState) (g : Option String) (tx : Tx)
    (hinv : HashInvariant s) :
    HashInvariant (okState s (ADD_TRANSACTION s g tx)) := by
  cases h : ADD_TRANSACTION s g tx with
  | error e => exact hinv
  | ok s2 =>
    rcases ADD_ok_cases s g tx s2 h with ⟨_, rfl⟩ | ⟨hnew, tg, rfl⟩
    · exact hinv
    · exact hashInvariant_addResult s tg tx hinv hnew

lemma REMOVE_ok_eq (s : WalletState) (g : Option String) (tx : Tx) :
    okState s (REMOVE_TRANSACTION s g tx) = s := by
  cases g with
  | none => rfl
  | some g0 =>
    rw [show REMOVE_TRANSACTION s (some g0) tx = (if g0 = "" then
        .error "Missing mandatory field group for action wallet/removeTransaction."
      else
        match transactionGroupToStateVariable g0 with
        | .error e => .error e
        | .ok transactionGroup =>
          match (groupTxs s transactionGroup).find?
              (fun tx1 => tx1.metaHash == tx.metaHash) with
          | none => .ok s
          | some _ =>
            .ok { setGroupTxs s transactionGroup (groupTxs s transactionGroup) with
                    transactionHashes := s.transactionHashes }) from rfl]
    by_cases hg : g0 = ""
    · simp [hg, okState]
    · simp only [if_neg hg]
      cases htg : transactionGroupToStateVariable g0 with
      | error e => rfl
      | ok tg =>
        dsimp only
        cases hf : (groupTxs s tg).find? (fun tx1 => tx1.metaHash == tx.metaHash) with
        | none => rfl
        | some t => cases tg <;> rfl

lemma hashInvariant_reset (s : WalletState) : HashInvariant (RESET_TRANSACTIONS s) := by
  constructor <;> simp [ledgerHashes, allTransactions, RESET_TRANSACTIONS]

lemma hashInvariant_dispatchAdds (g : String) :
    ∀ (txs : List Tx) (s : WalletState), HashInvariant s →
      HashInvariant (dispatchAdds g s txs).1
  | [], s, hinv => hinv
  | tx :: rest, s, hinv => by
    rw [dispatchAdds]
    cases h : ADD_TRANSACTION s (some g) tx with
    | ok s2 =>
      have h2 : HashInvariant s2 := by
        have h3 := hashInvariant_add s (some g) tx hinv
        rwa [h] at h3
      exact hashInvariant_dispatchAdds g rest s2 h2
    | error e => exact hinv

lemma hashInvariant_fetch (s : WalletState) (g a : Option String) (ps : Nat)
    (id : Option String) (svc : Except String (List Tx)) (hinv : HashInvariant s) :
    HashInvariant (REST_FETCH_TRANSACTIONS s g a ps id svc).state := by
  unfold REST_FETCH_TRANSACTIONS
  cases a with
  | none => exact hinv
  | some addr =>
    dsimp only
    split
    · exact hinv
    · split
      · exact hinv
      · split
        · exact hinv
        · split
          · exact hinv
          · exact hashInvariant_dispatchAdds _ _ _ hinv

lemma hashInvariant_applyOp (s : WalletState) (op : WOp) (hinv : HashInvariant s) :
    HashInvariant (applyOp s op) := by
  cases op with
  | add g tx => exact hashInvariant_add s g tx hinv
  | rem g tx =>
    rw [applyOp, REMOVE_ok_eq]
    exact hinv
  | reset => exact hashInvariant_reset s
  | fetch g a ps id svc => exact hashInvariant_fetch s g a ps id svc hinv

lemma hashInvariant_initial : HashInvariant initialState := by
  constructor <;> simp [ledgerHashes, allTransactions, initialState]

lemma closeAllFrom_ok (hs : List SubHandle) (h : ∀ x ∈ hs, failsH x = false) :
    closeAllFrom hs = (hs.map SubHandle.hid, .ok ()) := by
  induction hs with
  | nil => rfl
  | cons x rest ih =>
    rw [closeAllFrom]
    simp [h x (List.mem_cons_self x rest),
      ih (fun y hy => h y (List.mem_cons_of_mem x hy))]

lemma closeAllFrom_fail (pre : List SubHandle) (hh : SubHandle) (rest : List SubHandle)
    (hpre : ∀ x ∈ pre, failsH x = false) (hfail : failsH hh = true) :
    closeAllFrom (pre ++ hh :: rest) = (pre.map SubHandle.hid, .error ()) := by
  induction pre with
  | nil => simp [closeAllFrom, hfail]
  | cons x pre2 ih =>
    rw [List.cons_append, closeAllFrom]
    simp [hpre x (by simp), ih (fun y hy => hpre y (by simp [hy]))]

/-- C1: at the failing input (confirmed group, valid 40-character address,
empty cache, service returning one transaction) REST_FETCH_TRANSACTIONS
returns the failure value false instead of the fetched sequence: the local
variable blockHeights is never assigned, so blockHeights.push throws a
TypeError that the catch block turns into false.  The error path itself does
return false without propagating, as the third conjunct shows. -/
theorem C1_fetch_blockheights_bug :
    REST_FETCH_TRANSACTIONS initialState (some "confirmed") (some addr40) 10 none
        (Except.ok [txA])
      = ⟨FetchResult.failedFalse, initialState, true⟩ ∧
    FetchResult.failedFalse ≠ FetchResult.fetched [txA] ∧
    REST_FETCH_TRANSACTIONS initialState (some "confirmed") (some addr40) 10 none
        (Except.error "network failure")
      = ⟨FetchResult.failedFalse, initialState, true⟩ := by
  refine ⟨by decide, by decide, by decide⟩

/-- C2: every store state reachable by the mutating operations satisfies the
hash-index invariant: the hashes of the three group sequences form a subset of
transactionHashes and no hash occurs twice across or within the sequences. -/
theorem C2_hash_index_invariant (s : WalletState) (h : Reachable s) :
    HashInvariant s := by
  obtain ⟨ops, rfl⟩ := h
  suffices h2 : ∀ s0, HashInvariant s0 → HashInvariant (ops.foldl applyOp s0) from
    h2 initialState hashInvariant_initial
  induction ops with
  | nil => exact fun s0 h0 => h0
  | cons op rest ih => exact fun s0 h0 => ih _ (hashInvariant_applyOp s0 op h0)

/-- C2 witness: the invariant holds in the concrete state reached by an add, a
reset and a remove. -/
theorem C2_witness :
    HashInvariant (List.foldl applyOp initialState
      [WOp.add (some "confirmed") txA, WOp.reset, WOp.rem (some "confirmed") txA]) :=
  C2_hash_index_invariant _
    ⟨[WOp.add (some "confirmed") txA, WOp.reset, WOp.rem (some "confirmed") txA], rfl⟩

/-- C3 counterexample: RESET_TRANSACTIONS empties the sequences, but the hash
of txA, which belonged to the confirmed sequence, is still in the hash index
afterwards, refuting the clause that every such hash is cleared. -/
theorem C3_counterexample :
    allTransactions (RESET_TRANSACTIONS stateA) = [] ∧
    "HASH-A" ∈ ledgerHashes stateA ∧
    (RESET_TRANSACTIONS stateA).transactionHashes = ["HASH-A"] := by
  refine ⟨by decide, by decide, by decide⟩

/-- C3 amended: RESET_TRANSACTIONS clears the three group sequences and makes
allTransactions empty, but leaves the hash index unchanged. -/
theorem C3_reset_amended (s : WalletState) :
    (RESET_TRANSACTIONS s).confirmedTransactions = [] ∧
    (RESET_TRANSACTIONS s).unconfirmedTransactions = [] ∧
    (RESET_TRANSACTIONS s).partTransactions = [] ∧
    allTransactions (RESET_TRANSACTIONS s) = [] ∧
    (RESET_TRANSACTIONS s).transactionHashes = s.transactionHashes :=
  ⟨rfl, rfl, rfl, rfl, rfl⟩

/-- C4: at the failing input, REMOVE_TRANSACTION finds txA in the confirmed
sequence yet removes nothing: the delete statements index the arrays with a
transaction object and with a hash string, neither a canonical array index, so
the call returns ok with the state unchanged, txA still in the sequence and
its hash still in the index. -/
theorem C4_remove_noop_bug :
    REMOVE_TRANSACTION stateA (some "confirmed") txA = .ok stateA ∧
    txA ∈ stateA.confirmedTransactions ∧
    "HASH-A" ∈ stateA.transactionHashes := by
  refine ⟨by decide, by decide, by decide⟩

/-- C5 counterexample: ADD_TRANSACTION with the malformed group tag bogus
throws an exception to the caller instead of defaulting or short-circuiting. -/
theorem C5_counterexample :
    isErrorE (ADD_TRANSACTION initialState (some "bogus") txA) = true ∧
    ADD_TRANSACTION initialState (some "bogus") txA
      = .error "Unknown transaction group bogus" := by
  refine ⟨by decide, by decide⟩

/-- C5 amended: REST_FETCH_TRANSACTIONS resolves a malformed group tag by
defaulting to confirmed and an empty address by returning undefined, and
initialize short-circuits an absent or empty address, but ADD_TRANSACTION and
REMOVE_TRANSACTION throw on an absent, empty or unknown group tag. -/
theorem C5_validation_amended :
    (∀ (s : WalletState) (addr : Option String) (ps : Nat) (id : Option String)
        (svc : Except String (List Tx)) (g0 : String), g0 ∉ validGroups →
        REST_FETCH_TRANSACTIONS s (some g0) addr ps id svc
          = REST_FETCH_TRANSACTIONS s (some "confirmed") addr ps id svc) ∧
    (∀ (s : WalletState) (g : Option String) (ps : Nat) (id : Option String)
        (svc : Except String (List Tx)),
        REST_FETCH_TRANSACTIONS s g (some "") ps id svc
          = ⟨FetchResult.undef, s, false⟩) ∧
    (∀ s : WalletState, initializeAction s none = s ∧ initializeAction s (some "") = s) ∧
    (∀ (s : WalletState) (tx : Tx),
        (∃ e, ADD_TRANSACTION s none tx = .error e) ∧
        (∃ e, REMOVE_TRANSACTION s none tx = .error e)) ∧
    (∀ (s : WalletState) (tx : Tx) (g0 : String),
        jsToLower g0 ≠ "unconfirmed" → jsToLower g0 ≠ "confirmed" →
        jsToLower g0 ≠ "partial" →
        (∃ e, ADD_TRANSACTION s (some g0) tx = .error e) ∧
        (∃ e, REMOVE_TRANSACTION s (some g0) tx = .error e)) := by
  refine ⟨?_, ?_, ?_, ?_, ?_⟩
  · intro s addr ps id svc g0 h
    unfold REST_FETCH_TRANSACTIONS
    rw [show normalizeGroup (some g0) = "confirmed" from by simp [normalizeGroup, h],
        show normalizeGroup (some "confirmed") = "confirmed" from by decide]
  · intro s g ps id svc
    simp [REST_FETCH_TRANSACTIONS]
  · intro s
    exact ⟨rfl, by simp [initializeAction]⟩
  · intro s tx
    exact ⟨⟨_, rfl⟩, ⟨_, rfl⟩⟩
  · intro s tx g0 h1 h2 h3
    by_cases hg : g0 = ""
    · subst hg
      exact ⟨⟨_, rfl⟩, ⟨_, rfl⟩⟩
    · have htg : transactionGroupToStateVariable g0
          = .error ("Unknown transaction group " ++ g0) := by
        unfold transactionGroupToStateVariable
        rw [if_neg h1, if_neg h2, if_neg h3]
      constructor
      · rw [ADD_TRANSACTION]
        rw [if_neg hg, htg]
        exact ⟨_, rfl⟩
      · rw [show REMOVE_TRANSACTION s (some g0) tx = (if g0 = "" then
            .error "Missing mandatory field group for action wallet/removeTransaction."
          else
            match transactionGroupToStateVariable g0 with
            | .error e => .error e
            | .ok transactionGroup =>
              match (groupTxs s transactionGroup).find?
                  (fun tx1 => tx1.metaHash == tx.metaHash) with
              | none => .ok s
              | some _ =>
                .ok { setGroupTxs s transactionGroup (groupTxs s transactionGroup) with
                        transactionHashes := s.transactionHashes }) from rfl]
        rw [if_neg hg, htg]
        exact ⟨_, rfl⟩

/-- C5 witness: the amended statement at concrete inputs: the bogus tag
defaults in the fetch action and throws in ADD_TRANSACTION. -/
theorem C5_witness :
    REST_FETCH_TRANSACTIONS initialState (some "bogus") (some addr40) 10 none
        (Except.ok [])
      = REST_FETCH_TRANSACTIONS initialState (some "confirmed") (some addr40) 10 none
        (Except.ok []) ∧
    (∃ e, ADD_TRANSACTION initialState (some "bogus") txA = .error e) :=
  ⟨C5_validation_amended.1 initialState (some addr40) 10 none (Except.ok []) "bogus"
      (by decide),
    (C5_validation_amended.2.2.2.2 initialState txA "bogus" (by decide) (by decide)
      (by decide)).1⟩

/-- C6 counterexample: stateReset is reachable (add txA, then reset), its hash
index still holds the hash of txA while the sequences are empty, so adding txA
twice leaves zero entries across the three sequences, not exactly one. -/
theorem C6_counterexample :
    Reachable stateReset ∧
    ADD_TRANSACTION stateReset (some "confirmed") txA = .ok stateReset ∧
    (allTransactions stateReset).count txA = 0 :=
  ⟨⟨[WOp.add (some "confirmed") txA, WOp.reset], rfl⟩, by decide, by decide⟩

/-- C6 amended: in every state satisfying the hash-index invariant in which
the hash of the transaction is not yet indexed, adding the transaction twice
under a valid group succeeds both times (the duplicate is dropped silently,
not an error) and leaves exactly one entry for it across the three sequences
and exactly one occurrence of its hash in the index. -/
theorem C6_add_idempotent_amended (s : WalletState) (tx : Tx) (g : String)
    (tg : TGroup) (hg : transactionGroupToStateVariable g = .ok tg)
    (hinv : HashInvariant s) (hnew : tx.txInfoHash ∉ s.transactionHashes) :
    ∃ s1 s2, ADD_TRANSACTION s (some g) tx = .ok s1 ∧
      ADD_TRANSACTION s1 (some g) tx = .ok s2 ∧
      (allTransactions s2).count tx = 1 ∧
      s2.transactionHashes.count tx.txInfoHash = 1 := by
  have hge : g ≠ "" := by
    intro he
    rw [he] at hg
    rw [show transactionGroupToStateVariable ""
        = .error ("Unknown transaction group " ++ "") from rfl] at hg
    exact Except.noConfusion hg
  have h1 : ADD_TRANSACTION s (some g) tx = .ok (addResultState s tg tx) := by
    rw [ADD_TRANSACTION]
    rw [if_neg hge, hg]
    dsimp only
    rw [if_neg hnew]
  have hmem1 : tx.txInfoHash ∈ (addResultState s tg tx).transactionHashes := by
    rw [hashes_addResult]
    exact List.mem_append_right _ (by simp)
  have h2 : ADD_TRANSACTION (addResultState s tg tx) (some g) tx
      = .ok (addResultState s tg tx) := by
    rw [ADD_TRANSACTION]
    rw [if_neg hge, hg]
    dsimp only
    rw [if_pos hmem1]
  have hnotin : tx ∉ allTransactions s := fun hmem =>
    hnew (hinv.1 (List.mem_map_of_mem Tx.txInfoHash hmem))
  refine ⟨addResultState s tg tx, addResultState s tg tx, h1, h2, ?_, ?_⟩
  · rw [(allTransactions_addResult s tg tx).count_eq tx, List.count_cons_self,
      List.count_eq_zero_of_not_mem hnotin]
  · rw [hashes_addResult, List.count_append,
      List.count_eq_zero_of_not_mem hnew]
    simp

/-- C6 witness: the amended statement at the initial state with txA under the
confirmed group. -/
theorem C6_witness :
    ∃ s1 s2, ADD_TRANSACTION initialState (some "confirmed") txA = .ok s1 ∧
      ADD_TRANSACTION s1 (some "confirmed") txA = .ok s2 ∧
      (allTransactions s2).count txA = 1 ∧
      s2.transactionHashes.count txA.txInfoHash = 1 :=
  C6_add_idempotent_amended initialState txA "confirmed" TGroup.gConf (by decide)
    hashInvariant_initial (by decide)

/-- C7: allTransactions is the concatenation of the partial, unconfirmed and
confirmed sequences, in that fixed order: the partial entries come first, then
the unconfirmed, then the confirmed, whatever state the store is in. -/
theorem C7_allTransactions_fixed_order (s : WalletState) :
    allTransactions s
      = s.partTransactions ++ s.unconfirmedTransactions ++ s.confirmedTransactions ∧
    (allTransactions s).take s.partTransactions.length = s.partTransactions ∧
    ((allTransactions s).drop s.partTransactions.length).take
        s.unconfirmedTransactions.length = s.unconfirmedTransactions ∧
    ((allTransactions s).drop s.partTransactions.length).drop
        s.unconfirmedTransactions.length = s.confirmedTransactions := by
  have h0 : allTransactions s
      = s.partTransactions ++ (s.unconfirmedTransactions ++ s.confirmedTransactions) := by
    unfold allTransactions
    rw [List.append_assoc]
  refine ⟨rfl, ?_, ?_, ?_⟩
  · rw [h0]
    exact List.take_left _ _
  · rw [h0, List.drop_left]
    exact List.take_left _ _
  · rw [h0, List.drop_left]
    exact List.drop_left _ _

/-- C8: the caching scenario fails on the code: the first call stores the
fetched entries under the undefined key, not under the query fingerprint, so
the second identical call misses the cache and contacts the external service
again, and both calls return false rather than the page. -/
theorem C8_cache_never_hits_bug :
    fetchOnce.serviceCalled = true ∧
    fetchOnce.state.transactionCache = [(JsKey.undef, [⟨"HASH-A", txA⟩])] ∧
    fetchTwice.serviceCalled = true ∧
    fetchTwice.result = FetchResult.failedFalse := by
  refine ⟨by decide, by decide, by decide, by decide⟩

/-- C9 counterexample: with two registered handles where closing the first
throws, UNSUBSCRIBE closes nothing further: the remaining handle is not torn
down and the registry reset is never dispatched, refuting best-effort
teardown. -/
theorem C9_counterexample :
    (UNSUBSCRIBE stateSubs).1 = [] ∧
    subOk3.hid ∉ (UNSUBSCRIBE stateSubs).1 ∧
    didReset (UNSUBSCRIBE stateSubs) = false := by
  refine ⟨by decide, by decide, by decide⟩

/-- C9 amended: when closing a handle fails during UNSUBSCRIBE, teardown
aborts at the first failing handle: exactly the handles before it are
unsubscribed and closed, the failing handle and every later one are not, and
the registry is not reset because the exception propagates. -/
theorem C9_teardown_amended (s : WalletState) (pre : List SubHandle)
    (hh : SubHandle) (rest : List SubHandle)
    (hsubs : s.subscriptions = pre ++ hh :: rest)
    (hpre : ∀ x ∈ pre, failsH x = false) (hfail : failsH hh = true) :
    (UNSUBSCRIBE s).1 = pre.map SubHandle.hid ∧
    didReset (UNSUBSCRIBE s) = false := by
  unfold UNSUBSCRIBE
  rw [hsubs, closeAllFrom_fail pre hh rest hpre hfail]
  exact ⟨rfl, rfl⟩

/-- C9 witness: three registered handles with the middle one failing: only the
first is closed and the registry is not reset. -/
theorem C9_witness :
    (UNSUBSCRIBE stateSubs3).1 = [subOk1].map SubHandle.hid ∧
    didReset (UNSUBSCRIBE stateSubs3) = false :=
  C9_teardown_amended stateSubs3 [subOk1] subBad [subOk3] rfl (by decide) (by decide)

/-- C10: when the address is absent or its length differs from 40 (whatever
the other arguments), REST_FETCH_TRANSACTIONS returns undefined at once,
does not contact the external service and leaves the store state unchanged. -/
theorem C10_short_circuit (s : WalletState) (group : Option String)
    (address : Option String) (pageSize : Nat) (id : Option String)
    (service : Except String (List Tx))
    (h : address = none ∨ ∃ a, address = some a ∧ a.length ≠ 40) :
    REST_FETCH_TRANSACTIONS s group address pageSize id service
      = ⟨FetchResult.undef, s, false⟩ := by
  rcases h with h | ⟨a, rfl, hlen⟩
  · subst h
    rfl
  · unfold REST_FETCH_TRANSACTIONS
    dsimp only
    rw [if_pos hlen]

/-- C10 witness: a well-formed 3-character address short-circuits the fetch. -/
theorem C10_witness :
    REST_FETCH_TRANSACTIONS initialState (some "confirmed") (some "ABC") 10 none
      (Except.ok [txA]) = ⟨FetchResult.undef, initialState, false⟩ :=
  C10_short_circuit initialState (some "confirmed") (some "ABC") 10 none
    (Except.ok [txA]) (Or.inr ⟨"ABC", rfl, by decide⟩)
